import Mathlib

/-!
Shallow embedding of the point-of-sale checkout workflow of the Inventario
repository (Pinia stores `src/stores/sales.ts` and `src/stores/books.ts`).

Monetary amounts (prices, subtotals, taxes, totals, discounts) are modelled
as rationals (`ℚ`); quantities and stock counts as integers (`ℤ`), since the
JavaScript functions place no sign restriction on their numeric arguments.
Remote persistence calls (Supabase inserts/updates) are modelled by explicit
outcome parameters: the caller of `completeSale` supplies the outcome of the
sale-header insertion and of the line-item insertion, exactly the two points
where the source code can observe a failure (`saleErr`, `itemsErr`).
Wall-clock derived fields (`time`, `date`, `created_at`, `updated_at`) are
passed in as opaque strings where needed and otherwise omitted: no claim
mentions them.
-/

namespace Inventario

/-- Payment methods: the TypeScript union `'cash' | 'card' | 'digital'`. -/
inductive PaymentMethod
  | cash
  | card
  | digital
deriving DecidableEq, Repr

/-- A catalog book as held in the books store (`AppBook` in `books.ts`);
only the fields the checkout workflow reads are kept. -/
structure AppBook where
  id : String
  title : String
  author : String
  price : ℚ
  stock : ℤ
deriving DecidableEq, Repr

/-- One cart / sale line item (`AppSaleItem` in `sales.ts`). -/
structure AppSaleItem where
  bookId : String
  title : String
  author : String
  price : ℚ
  quantity : ℤ
  subtotal : ℚ
deriving DecidableEq, Repr

/-- The draft sale (`currentSale` ref in `sales.ts`). -/
structure CurrentSale where
  items : List AppSaleItem
  customerId : Option String
  customerName : Option String
  paymentMethod : PaymentMethod
  discount : ℚ
  notes : Option String
deriving DecidableEq, Repr

/-- A persisted/in-memory sale (`AppSale` in `sales.ts`); the wall-clock
fields `time`, `date`, `created_at`, `updated_at` are omitted. -/
structure AppSale where
  id : String
  customerId : Option String
  customerName : Option String
  total : ℚ
  subtotal : ℚ
  tax : ℚ
  discount : ℚ
  paymentMethod : PaymentMethod
  status : String
  items : List AppSaleItem
  notes : Option String
deriving DecidableEq, Repr

/-- The initial/cleared draft (`clearCurrentSale` in `sales.ts` resets to
`{ items: [], paymentMethod: 'cash', discount: 0 }`). -/
def emptyCurrentSale : CurrentSale :=
  { items := []
    customerId := none
    customerName := none
    paymentMethod := .cash
    discount := 0
    notes := none }

/-- `getBookById` in `books.ts`: `books.value.find(book => book.id === id)`. -/
def getBookById (books : List AppBook) (id : String) : Option AppBook :=
  books.find? (fun book => book.id == id)

/-- Replace the first element satisfying `p` by its image under `f`
(the effect of mutating the object returned by `Array.prototype.find`). -/
def applyFirst (p : α → Bool) (f : α → α) : List α → List α
  | [] => []
  | x :: rest => if p x then f x :: rest else x :: applyFirst p f rest

/-- Remove the first element satisfying `p`
(the effect of `findIndex` followed by `splice(index, 1)`). -/
def removeFirst (p : α → Bool) : List α → List α
  | [] => []
  | x :: rest => if p x then rest else x :: removeFirst p rest

/-- `updateStock(id, quantity)` in `books.ts`, restricted to its effect on the
in-memory `books` list: if no book has this id it returns unchanged
(`if (!book) return`); otherwise it computes `Math.max(0, book.stock + quantity)`
and `updateBook` replaces the matching entry with the updated row. -/
def updateStock (books : List AppBook) (id : String) (quantity : ℤ) : List AppBook :=
  match books.find? (fun book => book.id == id) with
  | none => books
  | some book =>
      let newStock := max 0 (book.stock + quantity)
      applyFirst (fun b => b.id == id) (fun b => { b with stock := newStock }) books

/-- The single error message thrown by `addItemToCurrentSale` for both the
unknown-book and the insufficient-stock case. -/
def addItemErr : String := "Libro no disponible o stock insuficiente"

/-- `addItemToCurrentSale(bookId, quantity = 1)` in `sales.ts`.
Throwing is modelled as returning `.error`; on success the new draft is
returned. The books store is read-only here: the function never writes to it,
which the embedding makes structural by returning only a `CurrentSale`. -/
def addItemToCurrentSale (books : List AppBook) (sale : CurrentSale)
    (bookId : String) (quantity : ℤ) : Except String CurrentSale :=
  match getBookById books bookId with
  | none => .error addItemErr
  | some book =>
      if book.stock < quantity then
        .error addItemErr
      else
        match sale.items.find? (fun item => item.bookId == bookId) with
        | some _ =>
            .ok { sale with
                  items := applyFirst (fun item => item.bookId == bookId)
                    (fun item =>
                      { item with
                        quantity := item.quantity + quantity
                        subtotal := item.price * (item.quantity + quantity) })
                    sale.items }
        | none =>
            .ok { sale with
                  items := sale.items ++
                    [{ bookId := bookId
                       title := book.title
                       author := book.author
                       price := book.price
                       quantity := quantity
                       subtotal := book.price * quantity }] }

/-- `removeItemFromCurrentSale(bookId)` in `sales.ts`. -/
def removeItemFromCurrentSale (sale : CurrentSale) (bookId : String) : CurrentSale :=
  { sale with items := removeFirst (fun item => item.bookId == bookId) sale.items }

/-- `updateItemQuantity(bookId, quantity)` in `sales.ts`. -/
def updateItemQuantity (sale : CurrentSale) (bookId : String) (quantity : ℤ) : CurrentSale :=
  match sale.items.find? (fun item => item.bookId == bookId) with
  | none => sale
  | some _ =>
      if quantity ≤ 0 then
        removeItemFromCurrentSale sale bookId
      else
        { sale with
          items := applyFirst (fun item => item.bookId == bookId)
            (fun item =>
              { item with quantity := quantity, subtotal := item.price * quantity })
            sale.items }

/-- `setDiscount(discount)` in `sales.ts`: clamps to `[0, 100]`. -/
def setDiscount (sale : CurrentSale) (discount : ℚ) : CurrentSale :=
  { sale with discount := max 0 (min 100 discount) }

/-- `currentSaleSubtotal` in `sales.ts`:
`items.reduce((sum, item) => sum + item.subtotal, 0)`. -/
def currentSaleSubtotal (sale : CurrentSale) : ℚ :=
  sale.items.foldl (fun sum item => sum + item.subtotal) 0

/-- `currentSaleTotal` in `sales.ts`:
`subtotal - (subtotal * discount) / 100 + subtotal * 0.08`. -/
def currentSaleTotal (sale : CurrentSale) : ℚ :=
  let subtotal := currentSaleSubtotal sale
  let discountAmount := subtotal * sale.discount / 100
  let tax := subtotal * (8 / 100)
  subtotal - discountAmount + tax

/-- The combined in-memory state the checkout workflow touches: the books
store's `books` list, the sales store's `sales` list, the draft `currentSale`,
and the sales store's `error` ref. -/
structure SalesState where
  books : List AppBook
  sales : List AppSale
  currentSale : CurrentSale
  errorMsg : Option String
deriving DecidableEq, Repr

/-- The error message thrown by `completeSale` on an empty draft. -/
def emptySaleErr : String := "No se puede completar la venta sin articulos"

/-- `completeSale()` in `sales.ts`. `headerResult` is the outcome of the
Supabase insert into `sales` (`.ok saleId` delivers the new row's id);
`itemsInsertErr` is the outcome of the insert into `sale_items`. On an empty
draft it throws before entering the `try` block, so `errorMsg` is untouched;
on a persistence failure the `catch` block records the message in `error.value`
and rethrows; on success it decrements stock per line via
`booksStore.updateStock(item.bookId, -item.quantity)`, prepends the new sale,
and clears the draft. Returns the final state and the thrown/returned value. -/
def completeSale (st : SalesState) (saleId : String)
    (headerResult : Except String Unit) (itemsInsertErr : Option String) :
    SalesState × Except String AppSale :=
  if st.currentSale.items = [] then
    (st, .error emptySaleErr)
  else
    let subtotal := currentSaleSubtotal st.currentSale
    let discountAmount := subtotal * st.currentSale.discount / 100
    let tax := subtotal * (8 / 100)
    let total := subtotal - discountAmount + tax
    match headerResult with
    | .error e => ({ st with errorMsg := some e }, .error e)
    | .ok _ =>
        match itemsInsertErr with
        | some e => ({ st with errorMsg := some e }, .error e)
        | none =>
            let newBooks := st.currentSale.items.foldl
              (fun books item => updateStock books item.bookId (-item.quantity))
              st.books
            let newSale : AppSale :=
              { id := saleId
                customerId := st.currentSale.customerId
                customerName := st.currentSale.customerName
                total := total
                subtotal := subtotal
                tax := tax
                discount := st.currentSale.discount
                paymentMethod := st.currentSale.paymentMethod
                status := "completed"
                items := st.currentSale.items
                notes := st.currentSale.notes }
            ({ books := newBooks
               sales := newSale :: st.sales
               currentSale := emptyCurrentSale
               errorMsg := none },
             .ok newSale)

/-- The three draft-cart operations of §4.1 of the spec. -/
inductive CartOp
  | add (bookId : String) (quantity : ℤ)
  | remove (bookId : String)
  | setQty (bookId : String) (quantity : ℤ)
deriving DecidableEq, Repr

/-- One cart operation applied to the draft, with throw semantics: a thrown
`addItemToCurrentSale` leaves the draft as it was (the source mutates the
draft only after its stock check has passed). The books store is read-only
for all three operations. -/
def applyCartOp (books : List AppBook) (sale : CurrentSale) : CartOp → CurrentSale
  | .add bookId quantity =>
      match addItemToCurrentSale books sale bookId quantity with
      | .ok newSale => newSale
      | .error _ => sale
  | .remove bookId => removeItemFromCurrentSale sale bookId
  | .setQty bookId quantity => updateItemQuantity sale bookId quantity

/-- A sequence of cart operations applied in order. -/
def applyCartOps (books : List AppBook) (sale : CurrentSale) (ops : List CartOp) :
    CurrentSale :=
  ops.foldl (applyCartOp books) sale

/-! ### List helper lemmas -/

theorem applyFirst_map_eq {α β : Type _} (p : α → Bool) (f : α → α) (g : α → β)
    (hf : ∀ x, g (f x) = g x) (l : List α) : (applyFirst p f l).map g = l.map g := by
  induction l with
  | nil => rfl
  | cons x rest ih => cases h : p x <;> simp [applyFirst, h, hf, ih]

theorem mem_applyFirst {α : Type _} {p : α → Bool} {f : α → α} {l : List α} {y : α}
    (hy : y ∈ applyFirst p f l) : y ∈ l ∨ ∃ x ∈ l, y = f x := by
  induction l with
  | nil => simp [applyFirst] at hy
  | cons x rest ih =>
      cases h : p x
      · rw [applyFirst, if_neg (by simp [h])] at hy
        rcases List.mem_cons.mp hy with h1 | h2
        · exact Or.inl (h1 ▸ List.mem_cons_self x rest)
        · rcases ih h2 with h3 | ⟨z, hz, rfl⟩
          · exact Or.inl (List.mem_cons_of_mem x h3)
          · exact Or.inr ⟨z, List.mem_cons_of_mem x hz, rfl⟩
      · rw [applyFirst, if_pos (by simp [h])] at hy
        rcases List.mem_cons.mp hy with h1 | h2
        · exact Or.inr ⟨x, List.mem_cons_self x rest, h1⟩
        · exact Or.inl (List.mem_cons_of_mem x h2)

theorem removeFirst_sublist {α : Type _} (p : α → Bool) (l : List α) :
    List.Sublist (removeFirst p l) l := by
  induction l with
  | nil => simp [removeFirst]
  | cons x rest ih =>
      cases h : p x
      · rw [removeFirst, if_neg (by simp [h])]
        exact ih.cons₂ x
      · rw [removeFirst, if_pos (by simp [h])]
        exact List.sublist_cons_self x rest

theorem mem_removeFirst {α : Type _} {p : α → Bool} {l : List α} {y : α}
    (hy : y ∈ removeFirst p l) : y ∈ l :=
  (removeFirst_sublist p l).subset hy

theorem find?_applyFirst {α : Type _} (p : α → Bool) (f : α → α)
    (hf : ∀ x, p (f x) = p x) (l : List α) :
    (applyFirst p f l).find? p = (l.find? p).map f := by
  induction l with
  | nil => rfl
  | cons x rest ih =>
      cases h : p x
      · rw [applyFirst, if_neg (by simp [h])]
        rw [List.find?_cons_of_neg _ (by simp [h]), List.find?_cons_of_neg _ (by simp [h])]
        exact ih
      · rw [applyFirst, if_pos (by simp [h])]
        rw [List.find?_cons_of_pos _ (by simp [hf, h]), List.find?_cons_of_pos _ (by simp [h])]
        rfl

/-! ### `updateStock` lemmas -/

theorem updateStock_cons_of_eq {b : AppBook} {id : String} (rest : List AppBook) (q : ℤ)
    (h : b.id = id) :
    updateStock (b :: rest) id q = { b with stock := max 0 (b.stock + q) } :: rest := by
  rw [updateStock, List.find?_cons_of_pos _ (by simp [h])]
  simp only [applyFirst, if_pos (show ((b.id == id) = true) by simp [h])]

theorem updateStock_cons_of_ne {b : AppBook} {id : String} (rest : List AppBook) (q : ℤ)
    (h : ¬ b.id = id) :
    updateStock (b :: rest) id q = b :: updateStock rest id q := by
  rw [updateStock, updateStock, List.find?_cons_of_neg _ (by simp [h])]
  cases hfind : rest.find? (fun book => book.id == id) with
  | none => rfl
  | some book =>
      simp only [applyFirst, if_neg (show ¬ ((b.id == id) = true) by simp [h])]

theorem getBookById_updateStock_self (books : List AppBook) (id : String) (q : ℤ) :
    getBookById (updateStock books id q) id
      = (getBookById books id).map (fun b => { b with stock := max 0 (b.stock + q) }) := by
  induction books with
  | nil => rfl
  | cons b rest ih =>
      by_cases h : b.id = id
      · rw [updateStock_cons_of_eq rest q h]
        rw [getBookById, List.find?_cons_of_pos _ (by simp [h]),
          getBookById, List.find?_cons_of_pos _ (by simp [h])]
        rfl
      · rw [updateStock_cons_of_ne rest q h]
        rw [getBookById, List.find?_cons_of_neg _ (by simp [h]),
          getBookById, List.find?_cons_of_neg _ (by simp [h])]
        exact ih

theorem getBookById_updateStock_ne (books : List AppBook) {id id' : String} (q : ℤ)
    (h : id' ≠ id) :
    getBookById (updateStock books id q) id' = getBookById books id' := by
  induction books with
  | nil => rfl
  | cons b rest ih =>
      by_cases hb : b.id = id
      · rw [updateStock_cons_of_eq rest q hb]
        have hb' : ¬ b.id = id' := fun hc => h ((hb.symm.trans hc).symm)
        rw [getBookById, List.find?_cons_of_neg _ (by simp [hb']),
          getBookById, List.find?_cons_of_neg _ (by simp [hb'])]
      · rw [updateStock_cons_of_ne rest q hb]
        by_cases hb' : b.id = id'
        · rw [getBookById, List.find?_cons_of_pos _ (by simp [hb']),
            getBookById, List.find?_cons_of_pos _ (by simp [hb'])]
        · rw [getBookById, List.find?_cons_of_neg _ (by simp [hb']),
            getBookById, List.find?_cons_of_neg _ (by simp [hb'])]
          exact ih

theorem updateStock_of_missing (books : List AppBook) (id : String) (q : ℤ)
    (h : getBookById books id = none) : updateStock books id q = books := by
  rw [updateStock, getBookById] at *
  rw [h]

/-! ### Lemmas about the stock-decrement fold performed by `completeSale` -/

theorem foldl_updateStock_of_not_mem (items : List AppSaleItem) (books : List AppBook)
    (id : String) (h : ∀ it ∈ items, it.bookId ≠ id) :
    getBookById
        (items.foldl (fun bs it => updateStock bs it.bookId (-it.quantity)) books) id
      = getBookById books id := by
  induction items generalizing books with
  | nil => rfl
  | cons x rest ih =>
      rw [List.foldl_cons]
      rw [ih (updateStock books x.bookId (-x.quantity))
        (fun it hit => h it (List.mem_cons_of_mem x hit))]
      exact getBookById_updateStock_ne books _ (h x (List.mem_cons_self x rest)).symm

theorem foldl_updateStock_of_mem (items : List AppSaleItem) (books : List AppBook)
    (it : AppSaleItem) (hmem : it ∈ items)
    (hnodup : (items.map AppSaleItem.bookId).Nodup) :
    getBookById
        (items.foldl (fun bs itm => updateStock bs itm.bookId (-itm.quantity)) books)
        it.bookId
      = (getBookById books it.bookId).map
          (fun b => { b with stock := max 0 (b.stock + -it.quantity) }) := by
  induction items generalizing books with
  | nil => exact absurd hmem (List.not_mem_nil it)
  | cons x rest ih =>
      rw [List.map_cons, List.nodup_cons] at hnodup
      rcases List.mem_cons.mp hmem with heq | hmem'
      · subst heq
        rw [List.foldl_cons]
        have hrest : ∀ y ∈ rest, y.bookId ≠ it.bookId := by
          intro y hy hc
          exact hnodup.1 (hc ▸ List.mem_map_of_mem AppSaleItem.bookId hy)
        rw [foldl_updateStock_of_not_mem rest _ it.bookId hrest]
        exact getBookById_updateStock_self books it.bookId (-it.quantity)
      · rw [List.foldl_cons]
        have hne : it.bookId ≠ x.bookId := by
          intro hc
          exact hnodup.1 (hc ▸ List.mem_map_of_mem AppSaleItem.bookId hmem')
        rw [ih (updateStock books x.bookId (-x.quantity)) hmem' hnodup.2]
        rw [getBookById_updateStock_ne books (-x.quantity) hne]

theorem foldl_updateStock_all_missing (items : List AppSaleItem) (books : List AppBook)
    (h : ∀ it ∈ items, getBookById books it.bookId = none) :
    items.foldl (fun bs it => updateStock bs it.bookId (-it.quantity)) books = books := by
  induction items with
  | nil => rfl
  | cons x rest ih =>
      rw [List.foldl_cons,
        updateStock_of_missing books x.bookId (-x.quantity) (h x (List.mem_cons_self x rest))]
      exact ih (fun it hit => h it (List.mem_cons_of_mem x hit))

/-! ### Cart-operation lemmas -/

/-- The `add` operations of a trace carry a positive quantity. The UI always
calls `addItemToCurrentSale` with a positive quantity; the function itself
does not validate its `quantity` argument. -/
def addQtyPos : CartOp → Prop
  | .add _ q => 0 < q
  | .remove _ => True
  | .setQty _ _ => True

/-- The line-merging update performed by `addItemToCurrentSale` on an
existing line. -/
def mergeLine (q : ℤ) (item : AppSaleItem) : AppSaleItem :=
  { item with quantity := item.quantity + q, subtotal := item.price * (item.quantity + q) }

/-- The fresh line appended by `addItemToCurrentSale` when no line exists. -/
def freshLine (bookId : String) (book : AppBook) (q : ℤ) : AppSaleItem :=
  { bookId := bookId, title := book.title, author := book.author,
    price := book.price, quantity := q, subtotal := book.price * q }

/-- Case analysis of a successful `addItemToCurrentSale` call. -/
theorem addItem_ok_cases (books : List AppBook) (sale : CurrentSale) (bookId : String)
    (q : ℤ) (ns : CurrentSale)
    (h : addItemToCurrentSale books sale bookId q = .ok ns) :
    ∃ book, getBookById books bookId = some book ∧ ¬ book.stock < q ∧
      (((∃ it0, sale.items.find? (fun it => it.bookId == bookId) = some it0) ∧
          ns.items
            = applyFirst (fun it => it.bookId == bookId) (mergeLine q) sale.items)
        ∨ (sale.items.find? (fun it => it.bookId == bookId) = none ∧
          ns.items = sale.items ++ [freshLine bookId book q])) := by
  unfold addItemToCurrentSale at h
  split at h
  · exact absurd h (by simp)
  next book hb =>
    split at h
    · exact absurd h (by simp)
    next hs =>
      split at h
      next it0 hf =>
        simp only [Except.ok.injEq] at h
        refine ⟨book, hb, hs, Or.inl ⟨⟨it0, hf⟩, ?_⟩⟩
        rw [← h]
        rfl
      next hf =>
        simp only [Except.ok.injEq] at h
        refine ⟨book, hb, hs, Or.inr ⟨hf, ?_⟩⟩
        rw [← h]
        rfl

/-- An invariant `P` preserved by every operation satisfying `Q` is preserved
by a whole trace of such operations. -/
theorem applyCartOps_invariant (books : List AppBook) (P : CurrentSale → Prop)
    (Q : CartOp → Prop)
    (hstep : ∀ sale op, Q op → P sale → P (applyCartOp books sale op)) :
    ∀ ops : List CartOp, (∀ op ∈ ops, Q op) →
      ∀ sale : CurrentSale, P sale → P (applyCartOps books sale ops)
  | [], _, _, h0 => h0
  | op :: rest, hops, sale, h0 =>
      applyCartOps_invariant books P Q hstep rest
        (fun o ho => hops o (List.mem_cons_of_mem op ho))
        (applyCartOp books sale op)
        (hstep sale op (hops op (List.mem_cons_self op rest)) h0)

theorem map_bookId_mergeLine (q : ℤ) (x : AppSaleItem) :
    (mergeLine q x).bookId = x.bookId := rfl

/-- Line-item book ids stay pairwise distinct under every cart operation. -/
theorem idsNodup_applyCartOp (books : List AppBook) (sale : CurrentSale) (op : CartOp)
    (h : (sale.items.map AppSaleItem.bookId).Nodup) :
    ((applyCartOp books sale op).items.map AppSaleItem.bookId).Nodup := by
  cases op with
  | add bookId q =>
      show ((match addItemToCurrentSale books sale bookId q with
        | .ok newSale => newSale
        | .error _ => sale).items.map AppSaleItem.bookId).Nodup
      cases hadd : addItemToCurrentSale books sale bookId q with
      | error e => exact h
      | ok ns =>
          show ((ns.items.map AppSaleItem.bookId)).Nodup
          obtain ⟨book, _, _, ⟨_, hitems⟩ | ⟨hf, hitems⟩⟩ :=
            addItem_ok_cases books sale bookId q ns hadd
          · rw [hitems, applyFirst_map_eq _ _ _ (map_bookId_mergeLine q)]
            exact h
          · rw [hitems]
            have hnot : bookId ∉ sale.items.map AppSaleItem.bookId := by
              intro hc
              obtain ⟨x, hx, hxid⟩ := List.mem_map.mp hc
              exact (List.find?_eq_none.mp hf x hx) (by simp [hxid])
            simp only [List.map_append, List.map_cons, List.map_nil]
            exact List.Nodup.append h (List.nodup_singleton bookId)
              (by simpa [List.disjoint_singleton] using hnot)
  | remove bookId =>
      show (((removeItemFromCurrentSale sale bookId).items.map AppSaleItem.bookId)).Nodup
      show (((removeFirst (fun it => it.bookId == bookId) sale.items).map
        AppSaleItem.bookId)).Nodup
      exact h.sublist ((removeFirst_sublist _ sale.items).map AppSaleItem.bookId)
  | setQty bookId q =>
      show (((updateItemQuantity sale bookId q).items.map AppSaleItem.bookId)).Nodup
      unfold updateItemQuantity
      split
      · exact h
      · split
        · show (((removeFirst (fun it => it.bookId == bookId) sale.items).map
            AppSaleItem.bookId)).Nodup
          exact h.sublist ((removeFirst_sublist _ sale.items).map AppSaleItem.bookId)
        · show (((applyFirst (fun it => it.bookId == bookId)
            (fun it => { it with quantity := q, subtotal := it.price * q })
            sale.items).map AppSaleItem.bookId)).Nodup
          rw [applyFirst_map_eq (fun it => it.bookId == bookId)
            (fun it => { it with quantity := q, subtotal := it.price * q })
            AppSaleItem.bookId (fun x => rfl)]
          exact h

/-- Every line quantity stays positive under operations whose `add`s carry a
positive quantity. -/
theorem itemsPos_applyCartOp (books : List AppBook) (sale : CurrentSale) (op : CartOp)
    (hop : addQtyPos op) (h : ∀ it ∈ sale.items, 0 < it.quantity) :
    ∀ it ∈ (applyCartOp books sale op).items, 0 < it.quantity := by
  cases op with
  | add bookId q =>
      show ∀ it ∈ (match addItemToCurrentSale books sale bookId q with
        | .ok newSale => newSale
        | .error _ => sale).items, (0 : ℤ) < it.quantity
      cases hadd : addItemToCurrentSale books sale bookId q with
      | error e => exact h
      | ok ns =>
          show ∀ it ∈ ns.items, (0 : ℤ) < it.quantity
          obtain ⟨book, _, _, ⟨_, hitems⟩ | ⟨_, hitems⟩⟩ :=
            addItem_ok_cases books sale bookId q ns hadd
          · rw [hitems]
            intro it hit
            rcases mem_applyFirst hit with hmem | ⟨x, hx, rfl⟩
            · exact h it hmem
            · exact add_pos (h x hx) hop
          · rw [hitems]
            intro it hit
            rcases List.mem_append.mp hit with hmem | hmem
            · exact h it hmem
            · rw [List.mem_singleton.mp hmem]
              exact hop
  | remove bookId =>
      intro it hit
      exact h it (mem_removeFirst hit)
  | setQty bookId q =>
      show ∀ it ∈ (updateItemQuantity sale bookId q).items, (0 : ℤ) < it.quantity
      unfold updateItemQuantity
      split
      · exact h
      · split
        next hq =>
          intro it hit
          exact h it (mem_removeFirst hit)
        next hq =>
          intro it hit
          rcases mem_applyFirst hit with hmem | ⟨x, hx, rfl⟩
          · exact h it hmem
          · exact lt_of_not_le hq

/-- Every line's stored `subtotal` stays equal to `unitPrice × quantity`
under every cart operation. -/
theorem itemsConsistent_applyCartOp (books : List AppBook) (sale : CurrentSale)
    (op : CartOp)
    (h : ∀ it ∈ sale.items, it.subtotal = it.price * (it.quantity : ℚ)) :
    ∀ it ∈ (applyCartOp books sale op).items,
      it.subtotal = it.price * (it.quantity : ℚ) := by
  cases op with
  | add bookId q =>
      show ∀ it ∈ (match addItemToCurrentSale books sale bookId q with
        | .ok newSale => newSale
        | .error _ => sale).items, it.subtotal = it.price * (it.quantity : ℚ)
      cases hadd : addItemToCurrentSale books sale bookId q with
      | error e => exact h
      | ok ns =>
          show ∀ it ∈ ns.items, it.subtotal = it.price * (it.quantity : ℚ)
          obtain ⟨book, _, _, ⟨_, hitems⟩ | ⟨_, hitems⟩⟩ :=
            addItem_ok_cases books sale bookId q ns hadd
          · rw [hitems]
            intro it hit
            rcases mem_applyFirst hit with hmem | ⟨x, hx, rfl⟩
            · exact h it hmem
            · simp only [mergeLine]
              push_cast
              ring
          · rw [hitems]
            intro it hit
            rcases List.mem_append.mp hit with hmem | hmem
            · exact h it hmem
            · rw [List.mem_singleton.mp hmem]
              rfl
  | remove bookId =>
      intro it hit
      exact h it (mem_removeFirst hit)
  | setQty bookId q =>
      show ∀ it ∈ (updateItemQuantity sale bookId q).items,
        it.subtotal = it.price * (it.quantity : ℚ)
      unfold updateItemQuantity
      split
      · exact h
      · split
        · intro it hit
          exact h it (mem_removeFirst hit)
        · intro it hit
          rcases mem_applyFirst hit with hmem | ⟨x, hx, rfl⟩
          · exact h it hmem
          · rfl

/-- With pairwise-distinct line ids, removing the first line matching an id
leaves no line with that id. -/
theorem removeFirst_ne_of_nodup (l : List AppSaleItem) (id : String)
    (h : (l.map AppSaleItem.bookId).Nodup) :
    ∀ y ∈ removeFirst (fun it => it.bookId == id) l, y.bookId ≠ id := by
  induction l with
  | nil => intro y hy; simp [removeFirst] at hy
  | cons x rest ih =>
      rw [List.map_cons, List.nodup_cons] at h
      cases hx : (x.bookId == id) with
      | false =>
          intro y hy
          rw [removeFirst, if_neg (by simp [hx])] at hy
          rcases List.mem_cons.mp hy with heq | hy'
          · subst heq
            simpa using hx
          · exact ih h.2 y hy'
      | true =>
          intro y hy
          rw [removeFirst, if_pos (by simp [hx])] at hy
          intro hc
          apply h.1
          have hxid : x.bookId = id := by simpa using hx
          rw [hxid, ← hc]
          exact List.mem_map_of_mem AppSaleItem.bookId hy

/-- `updateItemQuantity` with a non-positive quantity leaves no line with the
given id (assuming pairwise-distinct line ids). -/
theorem updateItemQuantity_removes (sale : CurrentSale) (id : String) (q : ℤ)
    (hq : q ≤ 0) (h : (sale.items.map AppSaleItem.bookId).Nodup) :
    ∀ y ∈ (updateItemQuantity sale id q).items, y.bookId ≠ id := by
  unfold updateItemQuantity
  split
  next hf =>
    intro y hy
    have := List.find?_eq_none.mp hf y hy
    simpa using this
  next it0 hf =>
    rw [if_pos hq]
    intro y hy
    exact removeFirst_ne_of_nodup sale.items id h y hy

/-- The `reduce` in `currentSaleSubtotal`, expressed as a list sum. -/
theorem foldl_add_subtotal (items : List AppSaleItem) (a : ℚ) :
    items.foldl (fun sum item => sum + item.subtotal) a
      = a + (items.map AppSaleItem.subtotal).sum := by
  induction items generalizing a with
  | nil => simp
  | cons x rest ih => simp [List.foldl_cons, ih, add_assoc]

theorem currentSaleSubtotal_eq_sum (sale : CurrentSale) :
    currentSaleSubtotal sale = (sale.items.map AppSaleItem.subtotal).sum := by
  rw [currentSaleSubtotal, foldl_add_subtotal, zero_add]

/-- The `newSale` record built by a successful `completeSale`, with its
monetary fields given by the derived computed properties of the draft. -/
def completedSale (st : SalesState) (saleId : String) : AppSale :=
  { id := saleId
    customerId := st.currentSale.customerId
    customerName := st.currentSale.customerName
    total := currentSaleTotal st.currentSale
    subtotal := currentSaleSubtotal st.currentSale
    tax := currentSaleSubtotal st.currentSale * (8 / 100)
    discount := st.currentSale.discount
    paymentMethod := st.currentSale.paymentMethod
    status := "completed"
    items := st.currentSale.items
    notes := st.currentSale.notes }

/-- Characterization of a fully successful `completeSale` run. -/
theorem completeSale_ok_eq (st : SalesState) (saleId : String)
    (hne : st.currentSale.items ≠ []) :
    completeSale st saleId (.ok ()) none
      = ({ books := st.currentSale.items.foldl
             (fun books item => updateStock books item.bookId (-item.quantity)) st.books
           sales := completedSale st saleId :: st.sales
           currentSale := emptyCurrentSale
           errorMsg := none },
         .ok (completedSale st saleId)) := by
  unfold completeSale
  rw [if_neg hne]
  rfl

/-- Characterization of a `completeSale` run whose header insertion fails. -/
theorem completeSale_headerErr_eq (st : SalesState) (saleId : String) (e : String)
    (ie : Option String) (hne : st.currentSale.items ≠ []) :
    completeSale st saleId (.error e) ie
      = ({ st with errorMsg := some e }, .error e) := by
  unfold completeSale
  rw [if_neg hne]

/-- Reduction of `addItemToCurrentSale` once the book lookup has succeeded. -/
theorem addItem_some_reduce (books : List AppBook) (sale : CurrentSale)
    (bookId : String) (q : ℤ) (b : AppBook)
    (hb : getBookById books bookId = some b) :
    addItemToCurrentSale books sale bookId q
      = if b.stock < q then .error addItemErr
        else
          match sale.items.find? (fun item => item.bookId == bookId) with
          | some _ =>
              .ok { sale with
                    items := applyFirst (fun item => item.bookId == bookId)
                      (mergeLine q) sale.items }
          | none =>
              .ok { sale with items := sale.items ++ [freshLine bookId b q] } := by
  unfold addItemToCurrentSale
  rw [hb]
  rfl

/-! ### Sample data used by the witnesses -/

def sampleBook : AppBook :=
  { id := "b1", title := "Dune", author := "Herbert", price := 10, stock := 3 }

def repricedBook : AppBook :=
  { id := "b1", title := "Dune", author := "Herbert", price := 99, stock := 3 }

def sampleLine : AppSaleItem :=
  { bookId := "b1", title := "Dune", author := "Herbert",
    price := 10, quantity := 2, subtotal := 20 }

def sampleCart : CurrentSale := { emptyCurrentSale with items := [sampleLine] }

def sampleState : SalesState :=
  { books := [sampleBook], sales := [], currentSale := sampleCart, errorMsg := none }

def missingState : SalesState :=
  { books := [], sales := [], currentSale := sampleCart, errorMsg := none }

/-! ### The claims -/

/-- Claim C1, counterexample: with catalog stock 3 and a cart line already
holding quantity 2, `addItem(b1, 2)` requests a cumulative quantity of 4 > 3,
yet the call succeeds: the source only compares the incremental `quantity`
argument against stock, never the cumulative cart quantity. -/
theorem addItem_cumulative_counterexample :
    sampleLine.quantity + 2 > sampleBook.stock
    ∧ (addItemToCurrentSale [sampleBook] sampleCart "b1" 2).isOk = true := by
  constructor
  · decide
  · rfl

/-- Claim C1 (amended): `addItem(bookId, qty)` fails (with the single error
message covering both `NotFound` and `OutOfStock`) when `bookId` is unknown,
and, for a known book, fails exactly when the incremental `qty` alone exceeds
the book's current stock — the quantity already in the cart's line is not
counted; otherwise it succeeds. -/
theorem addItem_error_spec (books : List AppBook) (cart : CurrentSale)
    (bookId : String) (q : ℤ) :
    (getBookById books bookId = none →
      addItemToCurrentSale books cart bookId q = .error addItemErr)
    ∧ (∀ b, getBookById books bookId = some b →
        (addItemToCurrentSale books cart bookId q = .error addItemErr ↔ b.stock < q)) := by
  constructor
  · intro hb
    unfold addItemToCurrentSale
    rw [hb]
  · intro b hb
    rw [addItem_some_reduce books cart bookId q b hb]
    by_cases hs : b.stock < q
    · rw [if_pos hs]
      simp [hs]
    · rw [if_neg hs]
      constructor
      · intro h
        split at h <;> exact absurd h (by simp)
      · intro h
        exact absurd h hs

/-- Witness for `addItem_error_spec`: an empty catalog rejects any add, and
with stock 3 the call `addItem(b1, 5)` fails exactly because `3 < 5`. -/
theorem addItem_error_spec_witness :
    addItemToCurrentSale [] emptyCurrentSale "b1" 1 = .error addItemErr
    ∧ (addItemToCurrentSale [sampleBook] emptyCurrentSale "b1" 5 = .error addItemErr
        ↔ sampleBook.stock < 5) :=
  ⟨(addItem_error_spec [] emptyCurrentSale "b1" 1).1 rfl,
   (addItem_error_spec [sampleBook] emptyCurrentSale "b1" 5).2 sampleBook rfl⟩

/-- Claim C2: for every draft cart whose discount lies in `[0, 100]`, the
derived total equals `subtotal × (1 − discount/100) + subtotal × 0.08`. -/
theorem currentSaleTotal_formula (sale : CurrentSale)
    (_h0 : 0 ≤ sale.discount) (_h1 : sale.discount ≤ 100) :
    currentSaleTotal sale
      = currentSaleSubtotal sale * (1 - sale.discount / 100)
        + currentSaleSubtotal sale * (8 / 100) := by
  unfold currentSaleTotal
  ring

/-- Witness for `currentSaleTotal_formula` at discount 10. -/
theorem currentSaleTotal_formula_witness :
    currentSaleTotal { sampleCart with discount := 10 }
      = currentSaleSubtotal { sampleCart with discount := 10 } * (1 - 10 / 100)
        + currentSaleSubtotal { sampleCart with discount := 10 } * (8 / 100) := by
  have h := currentSaleTotal_formula { sampleCart with discount := 10 }
    (by norm_num) (by norm_num)
  simpa using h

/-- Claim C3, counterexample: `addItem(b1, 0)` is accepted (stock `3 < 0` is
false) and creates a line with quantity 0, so the quantity-positivity
invariant fails for arbitrary operation sequences. -/
theorem cart_zero_quantity_counterexample :
    ∃ it ∈ (applyCartOps [sampleBook] emptyCurrentSale [CartOp.add "b1" 0]).items,
      ¬ (0 : ℤ) < it.quantity := by
  decide

/-- Claim C3 (amended): provided every `addItem` in the trace carries a
positive quantity (the function itself never validates its quantity
argument), every line item of the resulting draft has quantity > 0; and a
`setQuantity` with quantity ≤ 0 removes the book's line entirely. -/
theorem cart_invariant_spec (books : List AppBook) (ops : List CartOp)
    (hops : ∀ op ∈ ops, addQtyPos op) :
    (∀ it ∈ (applyCartOps books emptyCurrentSale ops).items, (0 : ℤ) < it.quantity)
    ∧ (∀ bookId q, q ≤ 0 →
        ∀ it ∈ (applyCartOps books emptyCurrentSale
            (ops ++ [CartOp.setQty bookId q])).items,
          it.bookId ≠ bookId) := by
  have hnodup : ((applyCartOps books emptyCurrentSale ops).items.map
      AppSaleItem.bookId).Nodup :=
    applyCartOps_invariant books
      (fun sale => (sale.items.map AppSaleItem.bookId).Nodup) (fun _ => True)
      (fun sale op _ h => idsNodup_applyCartOp books sale op h)
      ops (fun _ _ => trivial) emptyCurrentSale (by simp [emptyCurrentSale])
  constructor
  · exact applyCartOps_invariant books
      (fun sale => ∀ it ∈ sale.items, (0 : ℤ) < it.quantity) addQtyPos
      (fun sale op hq h => itemsPos_applyCartOp books sale op hq h)
      ops hops emptyCurrentSale (by simp [emptyCurrentSale])
  · intro bookId q hq it hit
    rw [applyCartOps, List.foldl_append] at hit
    exact updateItemQuantity_removes (applyCartOps books emptyCurrentSale ops)
      bookId q hq hnodup it hit

/-- Witness for `cart_invariant_spec` on the trace `[add b1 1]`. -/
theorem cart_invariant_spec_witness :
    (∀ it ∈ (applyCartOps [sampleBook] emptyCurrentSale [CartOp.add "b1" 1]).items,
        (0 : ℤ) < it.quantity)
    ∧ (∀ bookId q, q ≤ 0 →
        ∀ it ∈ (applyCartOps [sampleBook] emptyCurrentSale
            ([CartOp.add "b1" 1] ++ [CartOp.setQty bookId q])).items,
          it.bookId ≠ bookId) :=
  cart_invariant_spec [sampleBook] [CartOp.add "b1" 1]
    (by
      intro op hop
      rw [List.mem_singleton] at hop
      subst hop
      exact Int.one_pos)

/-- Claim C4: after a successful `completeSale`, every line item's referenced
book ends with stock `max(0, previous stock − line quantity)` (the line ids
of a draft built through the cart operations are pairwise distinct, which is
taken as a hypothesis here), and `updateStock` always computes
`max(0, stock + delta)` for a present book. -/
theorem completeSale_stock_spec (st : SalesState) (saleId : String)
    (hne : st.currentSale.items ≠ [])
    (hnodup : (st.currentSale.items.map AppSaleItem.bookId).Nodup) :
    (∀ it ∈ st.currentSale.items, ∀ b, getBookById st.books it.bookId = some b →
        getBookById (completeSale st saleId (.ok ()) none).1.books it.bookId
          = some { b with stock := max 0 (b.stock - it.quantity) })
    ∧ (∀ (books : List AppBook) (id : String) (q : ℤ) (b : AppBook),
        getBookById books id = some b →
        getBookById (updateStock books id q) id
          = some { b with stock := max 0 (b.stock + q) }) := by
  constructor
  · intro it hit b hb
    rw [completeSale_ok_eq st saleId hne]
    show getBookById (st.currentSale.items.foldl
        (fun books item => updateStock books item.bookId (-item.quantity)) st.books)
        it.bookId = _
    rw [foldl_updateStock_of_mem st.currentSale.items st.books it hit hnodup, hb,
      Option.map_some']
    rw [← sub_eq_add_neg]
  · intro books id q b hb
    rw [getBookById_updateStock_self books id q, hb, Option.map_some']

/-- Witness for `completeSale_stock_spec`: selling 2 of 3 copies of `b1`
leaves stock `max 0 (3 − 2) = 1`. -/
theorem completeSale_stock_spec_witness :
    getBookById (completeSale sampleState "s1" (.ok ()) none).1.books "b1"
      = some { sampleBook with stock := max 0 (sampleBook.stock - sampleLine.quantity) } := by
  have h := completeSale_stock_spec sampleState "s1" (by decide) (by decide)
  exact h.1 sampleLine (by decide) sampleBook rfl

/-- Claim C5: `completeSale` fails on an empty draft, and a failed
sale-header insertion aborts the run with the draft cart, the in-memory
sales collection and the books list (hence every book's stock) exactly as
they were; only the store's `error` ref is written. -/
theorem completeSale_failure_spec (st : SalesState) (saleId : String)
    (hr : Except String Unit) (ie : Option String) (e : String) :
    (st.currentSale.items = [] →
      completeSale st saleId hr ie = (st, .error emptySaleErr))
    ∧ (st.currentSale.items ≠ [] →
        (completeSale st saleId (.error e) ie).1.books = st.books
        ∧ (completeSale st saleId (.error e) ie).1.sales = st.sales
        ∧ (completeSale st saleId (.error e) ie).1.currentSale = st.currentSale
        ∧ (completeSale st saleId (.error e) ie).2 = .error e) := by
  constructor
  · intro h
    unfold completeSale
    rw [if_pos h]
  · intro h
    rw [completeSale_headerErr_eq st saleId e ie h]
    exact ⟨rfl, rfl, rfl, rfl⟩

/-- A state with an empty draft, used by the `completeSale` failure witness. -/
def emptyCartState : SalesState :=
  { books := [sampleBook], sales := [], currentSale := emptyCurrentSale, errorMsg := none }

/-- Witness for `completeSale_failure_spec`. -/
theorem completeSale_failure_spec_witness :
    completeSale emptyCartState "s1" (.ok ()) none = (emptyCartState, .error emptySaleErr)
    ∧ ((completeSale sampleState "s1" (.error "boom") none).1.books = sampleState.books
        ∧ (completeSale sampleState "s1" (.error "boom") none).1.sales = sampleState.sales
        ∧ (completeSale sampleState "s1" (.error "boom") none).1.currentSale
            = sampleState.currentSale
        ∧ (completeSale sampleState "s1" (.error "boom") none).2 = .error "boom") :=
  ⟨(completeSale_failure_spec emptyCartState "s1" (.ok ()) none "boom").1 rfl,
   (completeSale_failure_spec sampleState "s1" (.ok ()) none "boom").2 (by decide)⟩

/-- Claim C6: for every sequence of cart operations applied to the empty
draft, the derived subtotal equals the sum over the lines of
`unitPrice × quantity`. -/
theorem cart_subtotal_spec (books : List AppBook) (ops : List CartOp) :
    currentSaleSubtotal (applyCartOps books emptyCurrentSale ops)
      = ((applyCartOps books emptyCurrentSale ops).items.map
          (fun it => it.price * (it.quantity : ℚ))).sum := by
  have hcons : ∀ it ∈ (applyCartOps books emptyCurrentSale ops).items,
      it.subtotal = it.price * (it.quantity : ℚ) :=
    applyCartOps_invariant books
      (fun sale => ∀ it ∈ sale.items, it.subtotal = it.price * (it.quantity : ℚ))
      (fun _ => True)
      (fun sale op _ h => itemsConsistent_applyCartOp books sale op h)
      ops (fun _ _ => trivial) emptyCurrentSale (by simp [emptyCurrentSale])
  rw [currentSaleSubtotal_eq_sum]
  exact congrArg List.sum (List.map_congr_left hcons)

/-- Claim C7: when the requested quantity exceeds the book's current stock,
`addItem` throws and, under the store's throw semantics, the draft cart is
unchanged; the books store is read-only for this operation by construction
(the embedding of `addItemToCurrentSale` has no books output because the
source function never writes to the books store). -/
theorem addItem_out_of_stock_spec (books : List AppBook) (cart : CurrentSale)
    (bookId : String) (q : ℤ) (b : AppBook)
    (hb : getBookById books bookId = some b) (hq : b.stock < q) :
    addItemToCurrentSale books cart bookId q = .error addItemErr
    ∧ applyCartOp books cart (.add bookId q) = cart := by
  have herr : addItemToCurrentSale books cart bookId q = .error addItemErr := by
    rw [addItem_some_reduce books cart bookId q b hb, if_pos hq]
  refine ⟨herr, ?_⟩
  show (match addItemToCurrentSale books cart bookId q with
    | .ok newSale => newSale
    | .error _ => cart) = cart
  rw [herr]

/-- Witness for `addItem_out_of_stock_spec`: the spec scenario
`addItem(b, 5)` with stock 3. -/
theorem addItem_out_of_stock_spec_witness :
    addItemToCurrentSale [sampleBook] emptyCurrentSale "b1" 5 = .error addItemErr
    ∧ applyCartOp [sampleBook] emptyCurrentSale (.add "b1" 5) = emptyCurrentSale :=
  addItem_out_of_stock_spec [sampleBook] emptyCurrentSale "b1" 5 sampleBook rfl
    (by decide)

/-- Claim C8: a successful `completeSale` returns (and prepends to the sales
collection) a sale whose `subtotal`, `tax`, `discount` and `total` are the
draft's derived values at the moment of the call. -/
theorem completeSale_roundtrip_spec (st : SalesState) (saleId : String)
    (hne : st.currentSale.items ≠ []) :
    ∃ sale : AppSale,
      (completeSale st saleId (.ok ()) none).2 = .ok sale
      ∧ (completeSale st saleId (.ok ()) none).1.sales = sale :: st.sales
      ∧ sale.subtotal = currentSaleSubtotal st.currentSale
      ∧ sale.tax = currentSaleSubtotal st.currentSale * (8 / 100)
      ∧ sale.discount = st.currentSale.discount
      ∧ sale.total = currentSaleTotal st.currentSale := by
  refine ⟨completedSale st saleId, ?_, ?_, rfl, rfl, rfl, rfl⟩ <;>
    rw [completeSale_ok_eq st saleId hne]

/-- Witness for `completeSale_roundtrip_spec`. -/
theorem completeSale_roundtrip_spec_witness :
    ∃ sale : AppSale,
      (completeSale sampleState "s1" (.ok ()) none).2 = .ok sale
      ∧ (completeSale sampleState "s1" (.ok ()) none).1.sales
          = sale :: sampleState.sales
      ∧ sale.subtotal = currentSaleSubtotal sampleState.currentSale
      ∧ sale.tax = currentSaleSubtotal sampleState.currentSale * (8 / 100)
      ∧ sale.discount = sampleState.currentSale.discount
      ∧ sale.total = currentSaleTotal sampleState.currentSale :=
  completeSale_roundtrip_spec sampleState "s1" (by decide)

/-- Claim C9: `updateStock` on a book id absent from the in-memory catalog
is a silent no-op, and a `completeSale` whose line items all reference
missing books still records the sale while leaving the books list (hence
every stock value) untouched. -/
theorem updateStock_missing_spec (books : List AppBook) (id : String) (q : ℤ)
    (st : SalesState) (saleId : String)
    (hmissing : getBookById books id = none)
    (hne : st.currentSale.items ≠ [])
    (hall : ∀ it ∈ st.currentSale.items, getBookById st.books it.bookId = none) :
    updateStock books id q = books
    ∧ (completeSale st saleId (.ok ()) none).1.books = st.books
    ∧ (completeSale st saleId (.ok ()) none).2 = .ok (completedSale st saleId)
    ∧ (completeSale st saleId (.ok ()) none).1.sales
        = completedSale st saleId :: st.sales := by
  refine ⟨updateStock_of_missing books id q hmissing, ?_, ?_, ?_⟩ <;>
    rw [completeSale_ok_eq st saleId hne]
  exact foldl_updateStock_all_missing st.currentSale.items st.books hall

/-- Witness for `updateStock_missing_spec`: an empty catalog. -/
theorem updateStock_missing_spec_witness :
    updateStock [] "zz" (-5) = []
    ∧ (completeSale missingState "s1" (.ok ()) none).1.books = missingState.books
    ∧ (completeSale missingState "s1" (.ok ()) none).2
        = .ok (completedSale missingState "s1")
    ∧ (completeSale missingState "s1" (.ok ()) none).1.sales
        = completedSale missingState "s1" :: missingState.sales :=
  updateStock_missing_spec [] "zz" (-5) missingState "s1" rfl (by decide)
    (fun _ _ => rfl)

/-- Claim C10: merging `addItem` into an existing line keeps the price
snapshot taken at the first add — the resulting line is the old line with
only `quantity` and `subtotal` changed, the latter recomputed as the
snapshot price times the new cumulative quantity; the catalog book's current
price `b.price` does not occur in the result. -/
theorem addItem_price_snapshot_spec (books : List AppBook) (cart : CurrentSale)
    (bookId : String) (q : ℤ) (b : AppBook) (it0 : AppSaleItem)
    (hb : getBookById books bookId = some b) (hs : ¬ b.stock < q)
    (hit : cart.items.find? (fun it => it.bookId == bookId) = some it0) :
    ∃ cart', addItemToCurrentSale books cart bookId q = .ok cart'
      ∧ cart'.items.find? (fun it => it.bookId == bookId)
          = some { it0 with
              quantity := it0.quantity + q
              subtotal := it0.price * ((it0.quantity : ℚ) + (q : ℚ)) } := by
  rw [addItem_some_reduce books cart bookId q b hb, if_neg hs, hit]
  refine ⟨_, rfl, ?_⟩
  show (applyFirst (fun item => item.bookId == bookId) (mergeLine q)
      cart.items).find? (fun it => it.bookId == bookId) = _
  rw [find?_applyFirst (fun it => it.bookId == bookId) (mergeLine q)
    (fun x => rfl) cart.items, hit]
  rfl

/-- Witness for `addItem_price_snapshot_spec`: the catalog price of `b1` has
changed to 99, yet the merged line keeps the snapshot price 10. -/
theorem addItem_price_snapshot_spec_witness :
    ∃ cart', addItemToCurrentSale [repricedBook] sampleCart "b1" 1 = .ok cart'
      ∧ cart'.items.find? (fun it => it.bookId == "b1")
          = some { sampleLine with
              quantity := sampleLine.quantity + 1
              subtotal := sampleLine.price * ((sampleLine.quantity : ℚ) + ((1 : ℤ) : ℚ)) } :=
  addItem_price_snapshot_spec [repricedBook] sampleCart "b1" 1 repricedBook
    sampleLine rfl (by decide) rfl

end Inventario
